import Mathlib

/-!
Verification of the MyPaint `gui/accelmap.py` accelerator-map editor.

The module edits a toolkit-owned accelerator registry: a table of
entries, each binding an action path to a (keyval, modifiers) combo.
We embed the registry as a list of entries.  The toolkit operations
(`Gtk.AccelMap.lookup_entry`, `change_entry`, `add_entry`) are not part
of the repository source, so they are modelled from the specification;
the module functions (`_delete_clashing_accelmap_entries`,
`_set_accelmap_entry`, `_init_from_accel_map`, the dialog callbacks)
are translated from `gui/accelmap.py` directly.
-/

/-- One accelerator-map entry: an action path bound to a key combo.
The combo (0, 0) encodes "no binding": per the specification, deleting
a binding is modelled as changing the entry to (0, 0), so an entry with
combo (0, 0) carries no binding.  The toolkit also tracks a
changed-flag per entry; the specification gives it no semantics and the
module never reads it, so it is omitted from the state. -/
structure Entry where
  path : String
  keyval : Nat
  mods : Nat
deriving DecidableEq

/-- The accelerator registry state: the toolkit-owned table of entries. -/
abbrev Registry := List Entry

/-- The (keyval, modifiers) combo of an entry. -/
def combo (e : Entry) : Nat × Nat := (e.keyval, e.mods)

/-- Modelled from the spec: `Gtk.AccelMap.lookup_entry` (toolkit code,
not under src/) looks up an entry by path and reports its existence. -/
def lookup_entry (reg : Registry) (path : String) : Bool :=
  reg.any (fun e => e.path == path)

/-- Modelled from the spec: `Gtk.AccelMap.change_entry` (toolkit code,
not under src/) changes an existing entry for `path` to the given
combo, returning a success boolean; it fails when no entry for `path`
exists.  The module only ever passes `replace = true`.  Deleting is
change-to-(0, 0) with `replace = true`. -/
def change_entry (reg : Registry) (path : String) (keyval mods : Nat)
    (_replace : Bool) : Registry × Bool :=
  if lookup_entry reg path then
    (reg.map (fun e => if e.path == path then ⟨path, keyval, mods⟩ else e), true)
  else
    (reg, false)

/-- Modelled from the spec: `Gtk.AccelMap.add_entry` (toolkit code, not
under src/) registers a new entry; it is a no-op when an entry for the
path already exists. -/
def add_entry (reg : Registry) (path : String) (keyval mods : Nat) : Registry :=
  if lookup_entry reg path then reg else reg ++ [⟨path, keyval, mods⟩]

/-- `AccelMapEditor._get_accel_map_entries`: snapshots the global accel
map as a list of entries.  In the embedding the registry is already
that list. -/
def _get_accel_map_entries (reg : Registry) : Registry := reg

/-- Body of the loop in `AccelMapEditor._delete_clashing_accelmap_entries`
(`gui/accelmap.py` lines 366-376): skip the entry kept, skip entries
whose combo differs, delete (change to (0, 0)) every other clash. -/
def _delete_clash_step (keyval mods : Nat) (path_to_keep : String)
    (r : Registry) (e : Entry) : Registry :=
  if e.path == path_to_keep then r
  else if (e.keyval, e.mods) ≠ (keyval, mods) then r
  else (change_entry r e.path 0 0 true).1

/-- `AccelMapEditor._delete_clashing_accelmap_entries` (`gui/accelmap.py`
lines 363-376): iterate over a snapshot of the entries and delete every
entry on another path whose combo equals the new one. -/
def _delete_clashing_accelmap_entries (reg : Registry) (keyval mods : Nat)
    (path_to_keep : String) : Registry :=
  (_get_accel_map_entries reg).foldl (_delete_clash_step keyval mods path_to_keep) reg

/-- `AccelMapEditor._set_accelmap_entry` (`gui/accelmap.py` lines
378-394): delete clashing entries first, then update the entry for
`path` in place when it exists, otherwise add a new entry. -/
def _set_accelmap_entry (reg : Registry) (path : String) (keyval mods : Nat) :
    Registry :=
  let reg1 := _delete_clashing_accelmap_entries reg keyval mods path
  if lookup_entry reg1 path then
    (change_entry reg1 path keyval mods true).1
  else
    add_entry reg1 path keyval mods

/-! ### Proof-side characterizations of the commit operation -/

/-- An entry with its binding removed: change-to-(0, 0) keeps the path. -/
def cleared (e : Entry) : Entry := ⟨e.path, 0, 0⟩

/-- The clash test of the delete loop: another path, same combo. -/
def clashes (keyval mods : Nat) (keep : String) (e : Entry) : Bool :=
  (!(e.path == keep)) && (e.keyval == keyval) && (e.mods == mods)

/-- Closed form of the delete-clashes loop: an entry is cleared exactly
when some snapshot entry on its path is a clash. -/
def delete_clash_spec (reg : Registry) (keyval mods : Nat) (keep : String) :
    Registry :=
  reg.map (fun x =>
    if reg.any (fun e => clashes keyval mods keep e && (e.path == x.path)) then
      cleared x
    else x)

/-- A path is bound to combo `c` when an entry for it carries `c`;
the combo (0, 0) denotes the absence of a binding, so no path counts
as bound to (0, 0). -/
def bound_to (reg : Registry) (p : String) (c : Nat × Nat) : Prop :=
  c ≠ (0, 0) ∧ ∃ e ∈ reg, e.path = p ∧ combo e = c

instance (reg : Registry) (p : String) (c : Nat × Nat) :
    Decidable (bound_to reg p c) := by
  unfold bound_to
  exact inferInstance

/-- The at-most-one-binding-per-combo invariant: two distinct entries
agree on their combo only when that combo is (0, 0), the no-binding
marker. -/
def AtMostOneBinding (reg : Registry) : Prop :=
  ∀ i j : Fin reg.length, i ≠ j →
    combo (reg.get i) = combo (reg.get j) → combo (reg.get i) = (0, 0)

instance (reg : Registry) : Decidable (AtMostOneBinding reg) := by
  unfold AtMostOneBinding
  exact inferInstance

/-- Registry invariant from the data model: action paths are unique
identifiers, so no two entries share a path. -/
def PathsUnique (reg : Registry) : Prop :=
  ∀ i j : Fin reg.length, i ≠ j → (reg.get i).path ≠ (reg.get j).path

instance (reg : Registry) : Decidable (PathsUnique reg) := by
  unfold PathsUnique
  exact inferInstance

/-! ### Toolkit constants and modifier arithmetic

GDK modifier states are 32-bit flag words; the bitwise operations of
the key-press handler are embedded as structural recursions over the
32 bits so that they evaluate on concrete inputs. -/

/-- Bitwise AND on 32-bit flag words, low bit first. -/
def land32Aux : Nat → Nat → Nat → Nat
  | 0, _, _ => 0
  | fuel + 1, a, b =>
      (if a % 2 = 1 ∧ b % 2 = 1 then 1 else 0) + 2 * land32Aux fuel (a / 2) (b / 2)

/-- `a & b` on 32-bit flag words. -/
def land32 (a b : Nat) : Nat := land32Aux 32 a b

/-- Bitwise OR on 32-bit flag words, low bit first. -/
def lor32Aux : Nat → Nat → Nat → Nat
  | 0, _, _ => 0
  | fuel + 1, a, b =>
      (if a % 2 = 1 ∨ b % 2 = 1 then 1 else 0) + 2 * lor32Aux fuel (a / 2) (b / 2)

/-- `a | b` on 32-bit flag words. -/
def lor32 (a b : Nat) : Nat := lor32Aux 32 a b

/-- Bitwise AND-NOT on 32-bit flag words, low bit first. -/
def andNot32Aux : Nat → Nat → Nat → Nat
  | 0, _, _ => 0
  | fuel + 1, a, b =>
      (if a % 2 = 1 ∧ b % 2 = 0 then 1 else 0) + 2 * andNot32Aux fuel (a / 2) (b / 2)

/-- `a & ~b` on 32-bit flag words: the bits of `a` with the bits of
`b` subtracted. -/
def andNot32 (a b : Nat) : Nat := andNot32Aux 32 a b

/-- `Gdk.KEY_Return` (0xFF0D). -/
def KEY_Return : Nat := 65293

/-- `Gdk.KEY_Escape` (0xFF1B). -/
def KEY_Escape : Nat := 65307

/-- `Gdk.KEY_BackSpace` (0xFF08). -/
def KEY_BackSpace : Nat := 65288

/-- `Gdk.EventType.KEY_PRESS`. -/
def KEY_PRESS : Nat := 8

/-- `Gdk.ModifierType.SHIFT_MASK` (bit 0). -/
def SHIFT_MASK : Nat := 1

/-- `Gtk.ResponseType.OK`. -/
def RESPONSE_OK : Int := -5

/-- `Gtk.ResponseType.CANCEL`. -/
def RESPONSE_CANCEL : Int := -6

/-- `Gtk.ResponseType.REJECT`. -/
def RESPONSE_REJECT : Int := -2

/-- `AccelMapEditor._USE_NORMAL_DIALOG_KEYS` (`gui/accelmap.py` line 48). -/
def _USE_NORMAL_DIALOG_KEYS : Bool := true

/-- Result of `Gdk.Keymap.translate_keyboard_state`. -/
structure TranslateResult where
  bound : Bool
  keyval : Nat
  effective_group : Nat
  level : Nat
  consumed_modifiers : Nat

/-- Modelled from the spec: the toolkit collaborators used by the
dialog (keyboard-layout translation, keyval lowercasing, the default
accelerator modifier mask, the accelerator-validity rule, accelerator
labels, and markup escaping from `lib.helpers`); none of this code is
under src/, so the functions are opaque parameters of the embedding. -/
structure Toolkit where
  translate_keyboard_state : Nat → Nat → Nat → TranslateResult
  keyval_to_lower : Nat → Nat
  accelerator_get_default_mod_mask : Nat
  accelerator_valid : Nat → Nat → Bool
  accelerator_get_label : Nat → Nat → String
  escape : String → String

/-- A key-press event as the handler reads it. -/
structure KeyEvent where
  type : Nat
  is_modifier : Bool
  keyval : Nat
  hardware_keycode : Nat
  state : Nat
  group : Nat
deriving DecidableEq

/-- The mutable attributes of the capture dialog that the handlers
touch: the path being edited, the pending result combo, the key
preview label and the hint label. -/
structure DialogState where
  accel_path : String
  result_keyval : Option Nat
  result_mods : Option Nat
  accel_label_text : String
  hint_markup : String
deriving DecidableEq

/-- Outcome of the key-press handler: the returned handled flag, the
dialog state afterwards, and the terminal response it emitted via
`dialog.response`, if any. -/
structure KeyPressOutcome where
  handled : Bool
  dialog : DialogState
  response : Option Int
deriving DecidableEq

/-- Python dict assignment `d[k] = v` on an association list. -/
def dict_set (d : List (String × String)) (k v : String) :
    List (String × String) :=
  if d.any (fun kv => kv.1 == k) then
    d.map (fun kv => if kv.1 == k then (k, v) else kv)
  else d ++ [(k, v)]

/-- Python `d.get(k)` on an association list. -/
def dict_get (d : List (String × String)) (k : String) : Option String :=
  (d.find? (fun kv => kv.1 == k)).map (fun kv => kv.2)

/-- The keyval resolved by the handler (`gui/accelmap.py` lines
286-293): translate the hardware state through the active layout, then
lowercase. -/
def resolved_keyval (tk : Toolkit) (event : KeyEvent) : Nat :=
  tk.keyval_to_lower
    (tk.translate_keyboard_state event.hardware_keycode event.state event.group).keyval

/-- The modifier set recorded by the handler (`gui/accelmap.py` lines
294-303): the event state masked to the default accelerator mask with
consumed modifiers subtracted, with Shift forced back in when
lowercasing changed the keysym. -/
def resolved_mods (tk : Toolkit) (event : KeyEvent) : Nat :=
  let mods := andNot32 (land32 event.state tk.accelerator_get_default_mod_mask)
    (tk.translate_keyboard_state event.hardware_keycode event.state event.group).consumed_modifiers
  if resolved_keyval tk event ≠ event.keyval then lor32 mods SHIFT_MASK else mods

/-- Hint shown by `_edit_dialog_set_standard_hint` (`gui/accelmap.py`
lines 263-266). -/
def STANDARD_HINT : String := "Press keys to update this assignment"

/-- Fallback action label for a clash on an unknown path. -/
def UNKNOWN_ACTION_LABEL : String := "Unknown Action"

/-- The replace-warning markup of the clash branch (`gui/accelmap.py`
lines 327-335). -/
def replace_hint_markup (tk : Toolkit) (accel action : String) : String :=
  ("<b>") ++ tk.escape accel ++ (" is already in use for \x27")
    ++ tk.escape action ++ ("\x27. The existing assignment will be replaced.</b>")

/-- `AccelMapEditor._edit_dialog_key_press_cb` (`gui/accelmap.py` lines
268-344): ignore non-key-press events and modifier-only presses, remap
Return/Escape/BackSpace to terminal responses, resolve the combo
through the keyboard layout, absorb invalid combos, otherwise classify
the clash, update preview and hint, and store the pending result. -/
def _edit_dialog_key_press_cb (tk : Toolkit)
    (action_labels : List (String × String)) (entries : Registry)
    (dialog : DialogState) (event : KeyEvent) : KeyPressOutcome :=
  if event.type ≠ KEY_PRESS then ⟨false, dialog, none⟩
  else if event.is_modifier then ⟨false, dialog, none⟩
  else if _USE_NORMAL_DIALOG_KEYS = true ∧ event.keyval = KEY_Return then
    ⟨true, dialog, some RESPONSE_OK⟩
  else if _USE_NORMAL_DIALOG_KEYS = true ∧ event.keyval = KEY_Escape then
    ⟨true, dialog, some RESPONSE_CANCEL⟩
  else if _USE_NORMAL_DIALOG_KEYS = true ∧ event.keyval = KEY_BackSpace then
    ⟨true, dialog, some RESPONSE_REJECT⟩
  else
    let keyval := resolved_keyval tk event
    let mods := resolved_mods tk event
    let accel_label := tk.accelerator_get_label keyval mods
    if tk.accelerator_valid keyval mods = false then ⟨true, dialog, none⟩
    else
      match (_get_accel_map_entries entries).find?
          (fun e => e.keyval == keyval && e.mods == mods) with
      | some clash =>
          if clash.path = dialog.accel_path then
            ⟨true, { dialog with
                hint_markup := STANDARD_HINT,
                accel_label_text := accel_label,
                result_keyval := some keyval,
                result_mods := some mods }, none⟩
          else
            ⟨true, { dialog with
                hint_markup := replace_hint_markup tk accel_label
                  ((dict_get action_labels clash.path).getD UNKNOWN_ACTION_LABEL),
                accel_label_text := accel_label ++ (" (replace)"),
                result_keyval := some keyval,
                result_mods := some mods }, none⟩
      | none =>
          ⟨true, { dialog with
              hint_markup := STANDARD_HINT,
              accel_label_text := accel_label ++ (" (changed)"),
              result_keyval := some keyval,
              result_mods := some mods }, none⟩

/-- Outcome of the response handler: the registry afterwards and the
finalization effects on the editing widget and the dialog. -/
structure ResponseOutcome where
  registry : Registry
  editing_done : Bool
  widget_removed : Bool
  dialog_destroyed : Bool
deriving DecidableEq

/-- `AccelMapEditor._edit_dialog_response_cb` (`gui/accelmap.py` lines
346-361): Delete removes an existing binding, OK commits the pending
combo when one was captured (the dialog always sets both result fields
together, lines 342-343), Cancel changes nothing; the editing widget
is finalized and the dialog destroyed in every case. -/
def _edit_dialog_response_cb (reg : Registry) (dialog : DialogState)
    (response_id : Int) (path : String) : ResponseOutcome :=
  if response_id = RESPONSE_REJECT then
    if lookup_entry reg path then
      ⟨(change_entry reg path 0 0 true).1, true, true, true⟩
    else ⟨reg, true, true, true⟩
  else if response_id = RESPONSE_OK then
    match dialog.result_keyval, dialog.result_mods with
    | some keyval, some mods =>
        ⟨_set_accelmap_entry reg path keyval mods, true, true, true⟩
    | _, _ => ⟨reg, true, true, true⟩
  else ⟨reg, false, true, true⟩

/-! ### The binding list view -/

/-- An action of an action group: its name and its optional label
(Python may yield no label at all or an empty one). -/
structure ActionInfo where
  name : String
  label : Option String
deriving DecidableEq

/-- An action group of the UI manager. -/
structure ActionGroup where
  name : String
  actions : List ActionInfo
deriving DecidableEq

/-- A row of the list store: path, accelerator label (absent when the
path has no accelerator), action label. -/
structure AccelRow where
  path : String
  accel_label : Option String
  action_label : String
deriving DecidableEq

/-- The accelerator path of an action (`gui/accelmap.py` line 119). -/
def action_path (group_name action_name : String) : String :=
  ("<Actions>/") ++ group_name ++ ("/") ++ action_name

/-- The accel-label dict built by `_init_from_accel_map`
(`gui/accelmap.py` lines 112-114). -/
def accel_labels_of (tk : Toolkit) (entries : Registry) :
    List (String × String) :=
  (_get_accel_map_entries entries).foldl
    (fun d e => dict_set d e.path (tk.accelerator_get_label e.keyval e.mods)) []

/-- Body of the inner action loop of `_init_from_accel_map`
(`gui/accelmap.py` lines 117-129): skip actions with a falsy label,
record the label and append one row. -/
def _init_action_step (accel_labels : List (String × String))
    (group_name : String) (acc : List AccelRow × List (String × String))
    (action : ActionInfo) : List AccelRow × List (String × String) :=
  let path := action_path group_name action.name
  match action.label with
  | none => acc
  | some action_label =>
      if action_label = ("") then acc
      else
        (acc.1 ++ [⟨path, dict_get accel_labels path, action_label⟩],
          dict_set acc.2 path action_label)

/-- Body of the group loop of `_init_from_accel_map`
(`gui/accelmap.py` lines 115-116). -/
def _init_group_step (accel_labels : List (String × String))
    (acc : List AccelRow × List (String × String)) (group : ActionGroup) :
    List AccelRow × List (String × String) :=
  group.actions.foldl (_init_action_step accel_labels group.name) acc

/-- `AccelMapEditor._init_from_accel_map` (`gui/accelmap.py` lines
103-129): rebuild the store rows and the action-label dict from the
registry entries and the UI manager's action groups. -/
def _init_from_accel_map (tk : Toolkit) (entries : Registry)
    (groups : List ActionGroup) :
    List AccelRow × List (String × String) :=
  let accel_labels := accel_labels_of tk entries
  groups.foldl (_init_group_step accel_labels) ([], [])

/-- Python truthiness of an action label: present and non-empty. -/
def labeled (a : ActionInfo) : Bool :=
  match a.label with
  | none => false
  | some s => !(s == (""))

/-- The display label of an action, empty when missing. -/
def label_text (a : ActionInfo) : String := a.label.getD ("")

/-- The rows the rebuild is specified to produce for one group: one
row per action with a truthy label, none for the others. -/
def rows_for (accel_labels : List (String × String)) (g : ActionGroup) :
    List AccelRow :=
  (g.actions.filter labeled).map (fun a =>
    ⟨action_path g.name a.name,
      dict_get accel_labels (action_path g.name a.name), label_text a⟩)

/-! ### Concrete inputs used by the witnesses -/

/-- A registry with one binding, for the C1 witness. -/
def regW1 : Registry := [⟨"Q", 3, 4⟩]

/-- A registry with two bindings, for the C2 witness. -/
def regW2 : Registry := [⟨"a", 1, 0⟩, ⟨"b", 2, 0⟩]

/-- A registry with one binding, for the C9 witness. -/
def regW9 : Registry := [⟨"a", 1, 0⟩]

/-- A dialog state at the start of a capture, used by the witnesses. -/
def dialogW : DialogState := ⟨"<Actions>/App/Save", none, none, "", ""⟩

/-- A toolkit whose layout resolves the probed key to an uppercase
letter whose lowercase form differs, with Shift consumed, used by the
C5 witness. -/
def tkW5 : Toolkit where
  translate_keyboard_state := fun _ _ _ => ⟨true, 74, 0, 0, 1⟩
  keyval_to_lower := fun x => if x = 74 then 106 else x
  accelerator_get_default_mod_mask := 13
  accelerator_valid := fun _ _ => true
  accelerator_get_label := fun _ _ => ""
  escape := fun s => s

/-- A shifted-letter key-press event, used by the C5 witness. -/
def evW5 : KeyEvent := ⟨8, false, 74, 44, 1, 0⟩

/-- A toolkit whose accelerator-validity rule rejects everything, used
by the C6 witness. -/
def tkW6 : Toolkit where
  translate_keyboard_state := fun _ _ _ => ⟨true, 97, 0, 0, 0⟩
  keyval_to_lower := fun x => x
  accelerator_get_default_mod_mask := 13
  accelerator_valid := fun _ _ => false
  accelerator_get_label := fun _ _ => ""
  escape := fun s => s

/-- A bare letter key-press event, used by the C6 and C10 witnesses. -/
def evW6 : KeyEvent := ⟨8, false, 97, 38, 0, 0⟩

/-- A toolkit with an identity layout, used by the C10 witness. -/
def tkW10 : Toolkit where
  translate_keyboard_state := fun _ _ _ => ⟨true, 97, 0, 0, 0⟩
  keyval_to_lower := fun x => x
  accelerator_get_default_mod_mask := 13
  accelerator_valid := fun _ _ => true
  accelerator_get_label := fun _ _ => ""
  escape := fun s => s

/-- A modifier-only key-press event (Shift held alone), used by the C8
witness. -/
def evW8 : KeyEvent := ⟨8, true, 65505, 50, 1, 0⟩

/-! ### Theorems -/

theorem foldl_delete_clash (kv m : Nat) (keep : String) :
    ∀ (l : List Entry) (r : Registry),
      l.foldl (_delete_clash_step kv m keep) r
        = r.map (fun x =>
            if l.any (fun e => clashes kv m keep e && (e.path == x.path)) then
              cleared x
            else x)
  | [], r => by
      simp
  | e :: t, r => by
      rw [List.foldl_cons, foldl_delete_clash kv m keep t]
      by_cases hcl : clashes kv m keep e = true
      · have hkeep : (e.path == keep) = false := by
          simp only [clashes, Bool.and_eq_true, Bool.not_eq_true'] at hcl
          exact hcl.1.1
        have hk : e.keyval = kv := by
          simp only [clashes, Bool.and_eq_true, beq_iff_eq] at hcl
          exact hcl.1.2
        have hm : e.mods = m := by
          simp only [clashes, Bool.and_eq_true, beq_iff_eq] at hcl
          exact hcl.2
        have hstep : _delete_clash_step kv m keep r e
            = (change_entry r e.path 0 0 true).1 := by
          unfold _delete_clash_step
          rw [if_neg (by simp [hkeep]), if_neg (by simp [hk, hm])]
        rw [hstep]
        by_cases hlook : lookup_entry r e.path = true
        · have hch : (change_entry r e.path 0 0 true).1
              = r.map (fun y => if y.path == e.path then ⟨e.path, 0, 0⟩ else y) := by
            unfold change_entry
            rw [if_pos hlook]
          rw [hch, List.map_map]
          apply List.map_congr_left
          intro x _
          by_cases hx : (x.path == e.path) = true
          · have hxe : x.path = e.path := by simpa [beq_iff_eq] using hx
            simp only [Function.comp, hx, if_pos]
            have h1 : (⟨e.path, 0, 0⟩ : Entry) = cleared x := by
              simp [cleared, hxe]
            rw [h1]
            have h2 : (cleared x).path = x.path := rfl
            simp only [List.any_cons, hcl, Bool.true_and, h2]
            have h3 : (e.path == x.path) = true := by simp [beq_iff_eq, hxe]
            rw [h3]
            simp [cleared]
          · simp only [Function.comp, hx, if_neg, Bool.false_eq_true, not_false_iff]
            simp only [List.any_cons, hcl, Bool.true_and]
            have h3 : (e.path == x.path) = false := by
              rw [beq_eq_false_iff_ne]
              intro hh
              exact hx (by rw [beq_iff_eq]; exact hh.symm)
            rw [h3]
            simp
        · have hch : (change_entry r e.path 0 0 true).1 = r := by
            unfold change_entry
            rw [if_neg hlook]
          rw [hch]
          apply List.map_congr_left
          intro x hxr
          have hxe : (x.path == e.path) = false := by
            unfold lookup_entry at hlook
            rw [Bool.not_eq_true] at hlook
            rw [List.any_eq_false] at hlook
            simpa using hlook x hxr
          have h3 : (e.path == x.path) = false := by
            simp only [beq_eq_false_iff_ne] at hxe ⊢
            exact fun hh => hxe hh.symm
          simp [List.any_cons, h3]
      · have hstep : _delete_clash_step kv m keep r e = r := by
          unfold _delete_clash_step
          by_cases hkeep : (e.path == keep) = true
          · rw [if_pos hkeep]
          · rw [if_neg hkeep]
            rw [if_pos]
            intro hcontra
            apply hcl
            rw [Prod.mk.injEq] at hcontra
            simp [clashes, hkeep, hcontra.1, hcontra.2]
        rw [hstep]
        apply List.map_congr_left
        intro x _
        rw [Bool.not_eq_true] at hcl
        simp [List.any_cons, hcl]

theorem delete_clash_eq (reg : Registry) (kv m : Nat) (keep : String) :
    _delete_clashing_accelmap_entries reg kv m keep
      = delete_clash_spec reg kv m keep := by
  unfold _delete_clashing_accelmap_entries _get_accel_map_entries delete_clash_spec
  exact foldl_delete_clash kv m keep reg reg

theorem set_unfolded (reg : Registry) (p : String) (kv m : Nat) :
    _set_accelmap_entry reg p kv m
      = if lookup_entry (delete_clash_spec reg kv m p) p then
          (change_entry (delete_clash_spec reg kv m p) p kv m true).1
        else add_entry (delete_clash_spec reg kv m p) p kv m := by
  unfold _set_accelmap_entry
  rw [delete_clash_eq]

theorem mem_delete_clash_not_combo (reg : Registry) (kv m : Nat) (keep : String) :
    ∀ x ∈ delete_clash_spec reg kv m keep,
      x.path ≠ keep → combo x = (kv, m) → (kv, m) = (0, 0) := by
  intro x hx hpath hcombo
  unfold delete_clash_spec at hx
  rw [List.mem_map] at hx
  obtain ⟨y, hy, hxy⟩ := hx
  by_cases hc : (reg.any fun e => clashes kv m keep e && (e.path == y.path)) = true
  · rw [if_pos hc] at hxy
    rw [← hxy] at hcombo
    rw [← hcombo]
    rfl
  · rw [if_neg hc] at hxy
    exfalso
    apply hc
    rw [List.any_eq_true]
    refine ⟨y, hy, ?_⟩
    have h1 : y.path ≠ keep := by rw [hxy]; exact hpath
    have h2 : combo y = (kv, m) := by rw [hxy]; exact hcombo
    rw [combo, Prod.mk.injEq] at h2
    simp [clashes, h1, h2.1, h2.2]

theorem mem_set_accelmap (reg : Registry) (p : String) (kv m : Nat) :
    ∀ x ∈ _set_accelmap_entry reg p kv m,
      x = ⟨p, kv, m⟩ ∨ (x.path ≠ p ∧ x ∈ delete_clash_spec reg kv m p) := by
  intro x hx
  rw [set_unfolded] at hx
  by_cases hl : lookup_entry (delete_clash_spec reg kv m p) p = true
  · rw [if_pos hl] at hx
    unfold change_entry at hx
    rw [if_pos hl] at hx
    rw [List.mem_map] at hx
    obtain ⟨y, hy, hxy⟩ := hx
    by_cases hyp : (y.path == p) = true
    · rw [if_pos hyp] at hxy
      exact Or.inl hxy.symm
    · rw [if_neg hyp] at hxy
      refine Or.inr ⟨?_, hxy ▸ hy⟩
      rw [← hxy]
      intro hh
      exact hyp (by rw [beq_iff_eq]; exact hh)
  · rw [if_neg hl] at hx
    unfold add_entry at hx
    rw [if_neg hl] at hx
    rw [List.mem_append] at hx
    rcases hx with hx | hx
    · refine Or.inr ⟨?_, hx⟩
      unfold lookup_entry at hl
      rw [Bool.not_eq_true, List.any_eq_false] at hl
      have := hl x hx
      intro hh
      exact this (by rw [beq_iff_eq]; exact hh)
    · rw [List.mem_singleton] at hx
      exact Or.inl hx

theorem set_accelmap_mem_target (reg : Registry) (p : String) (kv m : Nat) :
    (⟨p, kv, m⟩ : Entry) ∈ _set_accelmap_entry reg p kv m := by
  rw [set_unfolded]
  by_cases hl : lookup_entry (delete_clash_spec reg kv m p) p = true
  · rw [if_pos hl]
    unfold change_entry
    rw [if_pos hl]
    unfold lookup_entry at hl
    rw [List.any_eq_true] at hl
    obtain ⟨y, hy, hyp⟩ := hl
    rw [List.mem_map]
    exact ⟨y, hy, by rw [if_pos hyp]⟩
  · rw [if_neg hl]
    unfold add_entry
    rw [if_neg hl]
    rw [List.mem_append, List.mem_singleton]
    exact Or.inr rfl

theorem set_accelmap_path_eq (reg : Registry) (p : String) (kv m : Nat) :
    ∀ x ∈ _set_accelmap_entry reg p kv m, x.path = p → x = ⟨p, kv, m⟩ := by
  intro x hx hp
  rcases mem_set_accelmap reg p kv m x hx with h | ⟨hne, _⟩
  · exact h
  · exact absurd hp hne

theorem lookup_set (reg : Registry) (p : String) (kv m : Nat) :
    lookup_entry (_set_accelmap_entry reg p kv m) p = true := by
  unfold lookup_entry
  rw [List.any_eq_true]
  exact ⟨⟨p, kv, m⟩, set_accelmap_mem_target reg p kv m, by simp⟩

/-- C1: committing combo C to path P removes any other path's binding
to C and leaves P bound to C: for every registry and every clash of
path Q with the committed combo, the post-state of
`_set_accelmap_entry` has no entry for Q bound to C while P is. -/
theorem claim_C1 (reg : Registry) (P Q : String) (kv m : Nat)
    (hQP : Q ≠ P) (hpre : bound_to reg Q (kv, m)) :
    ¬ bound_to (_set_accelmap_entry reg P kv m) Q (kv, m)
      ∧ bound_to (_set_accelmap_entry reg P kv m) P (kv, m) := by
  obtain ⟨hc0, -⟩ := hpre
  constructor
  · rintro ⟨-, e, he, hpath, hcombo⟩
    rcases mem_set_accelmap reg P kv m e he with h | ⟨hne, hmem⟩
    · rw [h] at hpath
      exact hQP hpath.symm
    · exact hc0 (mem_delete_clash_not_combo reg kv m P e hmem hne hcombo)
  · exact ⟨hc0, ⟨P, kv, m⟩, set_accelmap_mem_target reg P kv m, rfl, rfl⟩

theorem claim_C1_witness :
    ((("Q") : String) ≠ ("P") ∧ bound_to regW1 ("Q") (3, 4))
      ∧ (¬ bound_to (_set_accelmap_entry regW1 ("P") 3 4) ("Q") (3, 4)
          ∧ bound_to (_set_accelmap_entry regW1 ("P") 3 4) ("P") (3, 4)) :=
  ⟨⟨by decide, by decide⟩, claim_C1 regW1 ("P") ("Q") 3 4 (by decide) (by decide)⟩

theorem delete_clash_path_coherent (reg : Registry) (kv m : Nat) (keep : String) :
    ∀ x ∈ delete_clash_spec reg kv m keep,
      ∀ e ∈ delete_clash_spec reg kv m keep,
        x.path = e.path → e.path ≠ keep → combo e = (kv, m) → combo x = (0, 0) := by
  intro x hx e he hpe hek hcombo
  unfold delete_clash_spec at hx he
  rw [List.mem_map] at hx he
  obtain ⟨y, hy, hxy⟩ := hx
  obtain ⟨z, hz, hez⟩ := he
  have hxpath : x.path = y.path := by
    rw [← hxy]
    by_cases hcy : (reg.any fun e2 => clashes kv m keep e2 && (e2.path == y.path)) = true
    · rw [if_pos hcy]; rfl
    · rw [if_neg hcy]
  have hepath : e.path = z.path := by
    rw [← hez]
    by_cases hcz : (reg.any fun e2 => clashes kv m keep e2 && (e2.path == z.path)) = true
    · rw [if_pos hcz]; rfl
    · rw [if_neg hcz]
  by_cases hcy : (reg.any fun e2 => clashes kv m keep e2 && (e2.path == y.path)) = true
  · rw [if_pos hcy] at hxy
    rw [← hxy]
    rfl
  · exfalso
    apply hcy
    have hzy : z.path = y.path := by rw [← hepath, ← hpe, hxpath]
    have hcz : ¬ (reg.any fun e2 => clashes kv m keep e2 && (e2.path == z.path)) = true := by
      intro hh
      apply hcy
      rw [List.any_eq_true] at hh ⊢
      obtain ⟨w, hw, hww⟩ := hh
      refine ⟨w, hw, ?_⟩
      rw [Bool.and_eq_true] at hww ⊢
      refine ⟨hww.1, ?_⟩
      rw [beq_iff_eq] at hww ⊢
      rw [hww.2, hzy]
    rw [if_neg hcz] at hez
    rw [List.any_eq_true]
    refine ⟨z, hz, ?_⟩
    have h1 : z.path ≠ keep := by rw [hez]; exact hek
    have h2 : combo z = (kv, m) := by rw [hez]; exact hcombo
    rw [combo, Prod.mk.injEq] at h2
    have h3 : (z.path == y.path) = true := by rw [beq_iff_eq]; exact hzy
    simp [clashes, h1, h2.1, h2.2, h3]

theorem delete_clash_set_id (reg : Registry) (p : String) (kv m : Nat) :
    delete_clash_spec (_set_accelmap_entry reg p kv m) kv m p
      = _set_accelmap_entry reg p kv m := by
  unfold delete_clash_spec
  have hcong : ∀ x ∈ _set_accelmap_entry reg p kv m,
      (if (_set_accelmap_entry reg p kv m).any
          (fun e => clashes kv m p e && (e.path == x.path)) then cleared x else x)
        = x := by
    intro x hx
    by_cases hC : ((_set_accelmap_entry reg p kv m).any
        (fun e => clashes kv m p e && (e.path == x.path))) = true
    · rw [if_pos hC]
      rw [List.any_eq_true] at hC
      obtain ⟨e, he, hee⟩ := hC
      rw [Bool.and_eq_true] at hee
      have hcl := hee.1
      have hpath : e.path = x.path := by
        have := hee.2
        rwa [beq_iff_eq] at this
      simp only [clashes, Bool.and_eq_true, Bool.not_eq_true', beq_iff_eq] at hcl
      have hep : e.path ≠ p := by
        intro hh
        rw [hh] at hcl
        simp at hcl
      have hec : combo e = (kv, m) := by
        rw [combo, Prod.mk.injEq]
        exact ⟨hcl.1.2, hcl.2⟩
      rcases mem_set_accelmap reg p kv m e he with h | ⟨-, hedel⟩
      · rw [h] at hep
        simp at hep
      · have hxp : x.path ≠ p := by rw [← hpath]; exact hep
        rcases mem_set_accelmap reg p kv m x hx with h | ⟨-, hxdel⟩
        · rw [h] at hxp
          simp at hxp
        · have hz := delete_clash_path_coherent reg kv m p x hxdel e hedel hpath.symm hep hec
          rw [combo, Prod.mk.injEq] at hz
          cases x with
          | mk xp xk xm =>
              simp only at hz
              simp [cleared, hz.1, hz.2]
    · rw [if_neg hC]
  calc (_set_accelmap_entry reg p kv m).map
        (fun x => if (_set_accelmap_entry reg p kv m).any
            (fun e => clashes kv m p e && (e.path == x.path)) then cleared x else x)
      = (_set_accelmap_entry reg p kv m).map (fun x => x) :=
        List.map_congr_left hcong
    _ = _set_accelmap_entry reg p kv m := List.map_id' _

/-- C3: the commit operation is idempotent on the registry state:
applying `_set_accelmap_entry` twice with the same path and combo
yields the same registry as applying it once. -/
theorem claim_C3 (reg : Registry) (p : String) (kv m : Nat) :
    _set_accelmap_entry (_set_accelmap_entry reg p kv m) p kv m
      = _set_accelmap_entry reg p kv m := by
  rw [set_unfolded (_set_accelmap_entry reg p kv m) p kv m]
  rw [delete_clash_set_id]
  rw [if_pos (lookup_set reg p kv m)]
  unfold change_entry
  rw [if_pos (lookup_set reg p kv m)]
  have hcong : ∀ x ∈ _set_accelmap_entry reg p kv m,
      (if x.path == p then (⟨p, kv, m⟩ : Entry) else x) = x := by
    intro x hx
    by_cases hxp : (x.path == p) = true
    · rw [if_pos hxp]
      exact (set_accelmap_path_eq reg p kv m x hx (by rwa [beq_iff_eq] at hxp)).symm
    · rw [if_neg hxp]
  calc (_set_accelmap_entry reg p kv m).map
        (fun e => if e.path == p then (⟨p, kv, m⟩ : Entry) else e)
      = (_set_accelmap_entry reg p kv m).map (fun x => x) :=
        List.map_congr_left hcong
    _ = _set_accelmap_entry reg p kv m := List.map_id' _

theorem amob_map (reg : Registry) (f : Entry → Entry)
    (hf : ∀ x, f x = x ∨ combo (f x) = (0, 0)) (h : AtMostOneBinding reg) :
    AtMostOneBinding (reg.map f) := by
  intro i j hij hc
  rcases i with ⟨i, hi⟩
  rcases j with ⟨j, hj⟩
  have hi' : i < reg.length := by simpa using hi
  have hj' : j < reg.length := by simpa using hj
  have gi : (reg.map f).get ⟨i, hi⟩ = f (reg.get ⟨i, hi'⟩) := by
    rw [List.get_eq_getElem, List.get_eq_getElem]
    exact List.getElem_map f
  have gj : (reg.map f).get ⟨j, hj⟩ = f (reg.get ⟨j, hj'⟩) := by
    rw [List.get_eq_getElem, List.get_eq_getElem]
    exact List.getElem_map f
  rw [gi, gj] at hc
  rw [gi]
  rcases hf (reg.get ⟨i, hi'⟩) with hfi | hfi
  · rcases hf (reg.get ⟨j, hj'⟩) with hfj | hfj
    · rw [hfi, hfj] at hc
      rw [hfi]
      have hij' : (⟨i, hi'⟩ : Fin reg.length) ≠ ⟨j, hj'⟩ := by
        intro hh
        apply hij
        rw [Fin.mk.injEq] at hh ⊢
        exact hh
      exact h ⟨i, hi'⟩ ⟨j, hj'⟩ hij' hc
    · rw [hfi] at hc ⊢
      rw [hfj] at hc
      exact hc
  · rw [hfi]

theorem paths_unique_map (reg : Registry) (f : Entry → Entry)
    (hf : ∀ x, (f x).path = x.path) (h : PathsUnique reg) :
    PathsUnique (reg.map f) := by
  intro i j hij
  rcases i with ⟨i, hi⟩
  rcases j with ⟨j, hj⟩
  have hi' : i < reg.length := by simpa using hi
  have hj' : j < reg.length := by simpa using hj
  have gi : (reg.map f).get ⟨i, hi⟩ = f (reg.get ⟨i, hi'⟩) := by
    rw [List.get_eq_getElem, List.get_eq_getElem]
    exact List.getElem_map f
  have gj : (reg.map f).get ⟨j, hj⟩ = f (reg.get ⟨j, hj'⟩) := by
    rw [List.get_eq_getElem, List.get_eq_getElem]
    exact List.getElem_map f
  rw [gi, gj, hf, hf]
  have hij' : (⟨i, hi'⟩ : Fin reg.length) ≠ ⟨j, hj'⟩ := by
    intro hh
    apply hij
    rw [Fin.mk.injEq] at hh ⊢
    exact hh
  exact h ⟨i, hi'⟩ ⟨j, hj'⟩ hij'

theorem amob_delete_step (kv m : Nat) (keep : String) (r : Registry) (e : Entry)
    (h : AtMostOneBinding r) :
    AtMostOneBinding (_delete_clash_step kv m keep r e) := by
  unfold _delete_clash_step
  by_cases h1 : (e.path == keep) = true
  · rw [if_pos h1]; exact h
  · rw [if_neg h1]
    by_cases h2 : (e.keyval, e.mods) ≠ (kv, m)
    · rw [if_pos h2]; exact h
    · rw [if_neg h2]
      unfold change_entry
      by_cases h3 : lookup_entry r e.path = true
      · rw [if_pos h3]
        refine amob_map r _ (fun x => ?_) h
        by_cases hx : (x.path == e.path) = true
        · rw [if_pos hx]; right; rfl
        · rw [if_neg hx]; left; rfl
      · rw [if_neg h3]
        exact h

theorem amob_foldl (kv m : Nat) (keep : String) :
    ∀ (l : List Entry) (r : Registry), AtMostOneBinding r →
      AtMostOneBinding (l.foldl (_delete_clash_step kv m keep) r)
  | [], _, h => h
  | e :: t, r, h => by
      rw [List.foldl_cons]
      exact amob_foldl kv m keep t _ (amob_delete_step kv m keep r e h)

theorem amob_delete_spec (reg : Registry) (kv m : Nat) (keep : String)
    (h : AtMostOneBinding reg) :
    AtMostOneBinding (delete_clash_spec reg kv m keep) := by
  unfold delete_clash_spec
  refine amob_map reg _ (fun x => ?_) h
  by_cases hc : (reg.any fun e => clashes kv m keep e && (e.path == x.path)) = true
  · rw [if_pos hc]; right; rfl
  · rw [if_neg hc]; left; rfl

theorem paths_unique_delete_spec (reg : Registry) (kv m : Nat) (keep : String)
    (h : PathsUnique reg) :
    PathsUnique (delete_clash_spec reg kv m keep) := by
  unfold delete_clash_spec
  refine paths_unique_map reg _ (fun x => ?_) h
  by_cases hc : (reg.any fun e => clashes kv m keep e && (e.path == x.path)) = true
  · rw [if_pos hc]; rfl
  · rw [if_neg hc]

theorem amob_upsert (d : Registry) (p : String) (kv m : Nat)
    (hAd : AtMostOneBinding d) (hUd : PathsUnique d)
    (hno : ∀ x ∈ d, x.path ≠ p → combo x = (kv, m) → (kv, m) = (0, 0)) :
    AtMostOneBinding
      (d.map (fun e => if e.path == p then (⟨p, kv, m⟩ : Entry) else e)) := by
  intro i j hij hc
  rcases i with ⟨i, hi⟩
  rcases j with ⟨j, hj⟩
  have hi' : i < d.length := by simpa using hi
  have hj' : j < d.length := by simpa using hj
  have gi : (d.map (fun e => if e.path == p then (⟨p, kv, m⟩ : Entry) else e)).get ⟨i, hi⟩
      = if (d.get ⟨i, hi'⟩).path == p then (⟨p, kv, m⟩ : Entry) else d.get ⟨i, hi'⟩ := by
    rw [List.get_eq_getElem, List.get_eq_getElem]
    exact List.getElem_map _
  have gj : (d.map (fun e => if e.path == p then (⟨p, kv, m⟩ : Entry) else e)).get ⟨j, hj⟩
      = if (d.get ⟨j, hj'⟩).path == p then (⟨p, kv, m⟩ : Entry) else d.get ⟨j, hj'⟩ := by
    rw [List.get_eq_getElem, List.get_eq_getElem]
    exact List.getElem_map _
  have hmi : d.get ⟨i, hi'⟩ ∈ d := List.get_mem d _ _
  have hmj : d.get ⟨j, hj'⟩ ∈ d := List.get_mem d _ _
  have hij' : (⟨i, hi'⟩ : Fin d.length) ≠ ⟨j, hj'⟩ := by
    intro hh
    apply hij
    rw [Fin.mk.injEq] at hh ⊢
    exact hh
  rw [gi, gj] at hc
  rw [gi]
  by_cases hip : ((d.get ⟨i, hi'⟩).path == p) = true
  · by_cases hjp : ((d.get ⟨j, hj'⟩).path == p) = true
    · exfalso
      apply hUd ⟨i, hi'⟩ ⟨j, hj'⟩ hij'
      rw [beq_iff_eq] at hip hjp
      rw [hip, hjp]
    · rw [if_pos hip] at hc ⊢
      rw [if_neg hjp] at hc
      have hjq : (d.get ⟨j, hj'⟩).path ≠ p := by
        intro hh
        exact hjp (by rw [beq_iff_eq]; exact hh)
      have := hno (d.get ⟨j, hj'⟩) hmj hjq hc.symm
      rw [show combo (⟨p, kv, m⟩ : Entry) = (kv, m) from rfl]
      exact this
  · rw [if_neg hip] at hc ⊢
    by_cases hjp : ((d.get ⟨j, hj'⟩).path == p) = true
    · rw [if_pos hjp] at hc
      have hiq : (d.get ⟨i, hi'⟩).path ≠ p := by
        intro hh
        exact hip (by rw [beq_iff_eq]; exact hh)
      have := hno (d.get ⟨i, hi'⟩) hmi hiq hc
      rw [hc]
      exact this
    · rw [if_neg hjp] at hc
      exact hAd ⟨i, hi'⟩ ⟨j, hj'⟩ hij' hc

theorem get_append_one (d : Registry) (a : Entry) (k : Nat)
    (hk : k < (d ++ [a]).length) :
    (d ++ [a]).get ⟨k, hk⟩ = if hk2 : k < d.length then d.get ⟨k, hk2⟩ else a := by
  rw [List.get_eq_getElem, List.getElem_append]
  by_cases hk2 : k < d.length
  · rw [dif_pos hk2, dif_pos hk2, List.get_eq_getElem]
  · rw [dif_neg hk2, dif_neg hk2]
    have hk3 : k = d.length := by
      simp only [List.length_append, List.length_singleton] at hk
      omega
    simp [hk3]

theorem amob_append (d : Registry) (p : String) (kv m : Nat)
    (hAd : AtMostOneBinding d)
    (hnp : ∀ x ∈ d, x.path ≠ p)
    (hno : ∀ x ∈ d, x.path ≠ p → combo x = (kv, m) → (kv, m) = (0, 0)) :
    AtMostOneBinding (d ++ [(⟨p, kv, m⟩ : Entry)]) := by
  intro i j hij hc
  rcases i with ⟨i, hi⟩
  rcases j with ⟨j, hj⟩
  rw [get_append_one] at hc ⊢
  rw [get_append_one] at hc
  by_cases hi2 : i < d.length
  · rw [dif_pos hi2] at hc ⊢
    have hmi : d.get ⟨i, hi2⟩ ∈ d := List.get_mem d _ _
    by_cases hj2 : j < d.length
    · rw [dif_pos hj2] at hc
      have hij' : (⟨i, hi2⟩ : Fin d.length) ≠ ⟨j, hj2⟩ := by
        intro hh
        apply hij
        rw [Fin.mk.injEq] at hh ⊢
        exact hh
      exact hAd ⟨i, hi2⟩ ⟨j, hj2⟩ hij' hc
    · rw [dif_neg hj2] at hc
      have := hno (d.get ⟨i, hi2⟩) hmi (hnp _ hmi) hc
      rw [hc]
      exact this
  · rw [dif_neg hi2] at hc ⊢
    by_cases hj2 : j < d.length
    · rw [dif_pos hj2] at hc
      have hmj : d.get ⟨j, hj2⟩ ∈ d := List.get_mem d _ _
      have := hno (d.get ⟨j, hj2⟩) hmj (hnp _ hmj)
        (by rw [show combo (⟨p, kv, m⟩ : Entry) = (kv, m) from rfl] at hc; exact hc.symm)
      rw [show combo (⟨p, kv, m⟩ : Entry) = (kv, m) from rfl]
      exact this
    · exfalso
      apply hij
      have hil : i = d.length := by
        simp only [List.length_append, List.length_singleton] at hi
        omega
      have hjl : j = d.length := by
        simp only [List.length_append, List.length_singleton] at hj
        omega
      rw [Fin.mk.injEq, hil, hjl]

theorem amob_set (reg : Registry) (p : String) (kv m : Nat)
    (hA : AtMostOneBinding reg) (hU : PathsUnique reg) :
    AtMostOneBinding (_set_accelmap_entry reg p kv m) := by
  rw [set_unfolded]
  have hAd : AtMostOneBinding (delete_clash_spec reg kv m p) :=
    amob_delete_spec reg kv m p hA
  have hUd : PathsUnique (delete_clash_spec reg kv m p) :=
    paths_unique_delete_spec reg kv m p hU
  have hno : ∀ x ∈ delete_clash_spec reg kv m p,
      x.path ≠ p → combo x = (kv, m) → (kv, m) = (0, 0) :=
    mem_delete_clash_not_combo reg kv m p
  by_cases hl : lookup_entry (delete_clash_spec reg kv m p) p = true
  · rw [if_pos hl]
    unfold change_entry
    rw [if_pos hl]
    exact amob_upsert (delete_clash_spec reg kv m p) p kv m hAd hUd hno
  · rw [if_neg hl]
    unfold add_entry
    rw [if_neg hl]
    have hnp : ∀ x ∈ delete_clash_spec reg kv m p, x.path ≠ p := by
      intro x hx hh
      apply hl
      unfold lookup_entry
      rw [List.any_eq_true]
      exact ⟨x, hx, by rw [beq_iff_eq]; exact hh⟩
    exact amob_append (delete_clash_spec reg kv m p) p kv m hAd hnp hno

/-- C2: on a registry satisfying the at-most-one-binding invariant
(with unique paths), the commit operation deletes clashes before the
upsert, and the invariant holds in every intermediate state of the
delete loop, after the delete phase, and in the final state: no state
ever holds two bindings with the same (keyval, modifiers). -/
theorem claim_C2 (reg : Registry) (p : String) (kv m : Nat)
    (hA : AtMostOneBinding reg) (hU : PathsUnique reg) :
    (∀ l1 l2 : List Entry, _get_accel_map_entries reg = l1 ++ l2 →
        AtMostOneBinding (l1.foldl (_delete_clash_step kv m p) reg))
      ∧ AtMostOneBinding (_delete_clashing_accelmap_entries reg kv m p)
      ∧ AtMostOneBinding (_set_accelmap_entry reg p kv m) := by
  refine ⟨fun l1 _ _ => amob_foldl kv m p l1 reg hA, ?_, amob_set reg p kv m hA hU⟩
  unfold _delete_clashing_accelmap_entries _get_accel_map_entries
  exact amob_foldl kv m p reg reg hA

theorem claim_C2_witness :
    (AtMostOneBinding regW2 ∧ PathsUnique regW2)
      ∧ ((∀ l1 l2 : List Entry, _get_accel_map_entries regW2 = l1 ++ l2 →
            AtMostOneBinding (l1.foldl (_delete_clash_step 1 0 ("c")) regW2))
          ∧ AtMostOneBinding (_delete_clashing_accelmap_entries regW2 1 0 ("c"))
          ∧ AtMostOneBinding (_set_accelmap_entry regW2 ("c") 1 0)) :=
  ⟨⟨by decide, by decide⟩, claim_C2 regW2 ("c") 1 0 (by decide) (by decide)⟩

theorem clash_cond_false (reg : Registry) (kv m : Nat) (keep : String)
    (hU : PathsUnique reg) (i : Nat) (hi : i < reg.length)
    (hc : combo (reg.get ⟨i, hi⟩) ≠ (kv, m)) :
    (reg.any fun e => clashes kv m keep e && (e.path == (reg.get ⟨i, hi⟩).path))
      = false := by
  rw [Bool.eq_false_iff]
  intro hh
  rw [List.any_eq_true] at hh
  obtain ⟨e, he, hee⟩ := hh
  rw [Bool.and_eq_true] at hee
  have hpe : e.path = (reg.get ⟨i, hi⟩).path := by
    have := hee.2
    rwa [beq_iff_eq] at this
  rw [List.mem_iff_get] at he
  obtain ⟨⟨j, hj⟩, hje⟩ := he
  by_cases hji : j = i
  · subst hji
    apply hc
    have hcl := hee.1
    simp only [clashes, Bool.and_eq_true, beq_iff_eq] at hcl
    rw [show reg.get ⟨j, hi⟩ = e from hje, combo, Prod.mk.injEq]
    exact ⟨hcl.1.2, hcl.2⟩
  · have hne := hU ⟨j, hj⟩ ⟨i, hi⟩ (by
      intro hx
      apply hji
      rw [Fin.mk.injEq] at hx
      exact hx)
    rw [hje] at hne
    exact hne hpe

/-- C9 (frame property): on a registry with unique paths, the commit
operation leaves every entry whose path differs from the target path
and whose combo differs from the committed combo exactly where and as
it was. -/
theorem claim_C9 (reg : Registry) (p : String) (kv m : Nat)
    (hU : PathsUnique reg) (i : Nat) (hi : i < reg.length)
    (hp : (reg.get ⟨i, hi⟩).path ≠ p)
    (hc : combo (reg.get ⟨i, hi⟩) ≠ (kv, m)) :
    ∃ hi2 : i < (_set_accelmap_entry reg p kv m).length,
      (_set_accelmap_entry reg p kv m).get ⟨i, hi2⟩ = reg.get ⟨i, hi⟩ := by
  rw [set_unfolded]
  have hdlen : (delete_clash_spec reg kv m p).length = reg.length := by
    unfold delete_clash_spec
    exact List.length_map _ _
  have hid : i < (delete_clash_spec reg kv m p).length := by omega
  have hget_d : (delete_clash_spec reg kv m p).get ⟨i, hid⟩ = reg.get ⟨i, hi⟩ := by
    unfold delete_clash_spec
    rw [List.get_eq_getElem, List.getElem_map]
    rw [show (reg[i] : Entry) = reg.get ⟨i, hi⟩ from by rw [List.get_eq_getElem]]
    rw [clash_cond_false reg kv m p hU i hi hc]
    simp
  by_cases hl : lookup_entry (delete_clash_spec reg kv m p) p = true
  · rw [if_pos hl]
    unfold change_entry
    rw [if_pos hl]
    have hi2 : i < ((delete_clash_spec reg kv m p).map
        (fun e => if e.path == p then (⟨p, kv, m⟩ : Entry) else e)).length := by
      rw [List.length_map]
      exact hid
    refine ⟨hi2, ?_⟩
    rw [List.get_eq_getElem, List.getElem_map]
    rw [show ((delete_clash_spec reg kv m p)[i] : Entry)
        = (delete_clash_spec reg kv m p).get ⟨i, hid⟩ from by rw [List.get_eq_getElem]]
    rw [hget_d]
    rw [if_neg (by
      intro hh
      rw [beq_iff_eq] at hh
      exact hp hh)]
  · rw [if_neg hl]
    unfold add_entry
    rw [if_neg hl]
    have hi2 : i < ((delete_clash_spec reg kv m p) ++ [(⟨p, kv, m⟩ : Entry)]).length := by
      rw [List.length_append, List.length_singleton]
      omega
    refine ⟨hi2, ?_⟩
    rw [get_append_one, dif_pos hid]
    exact hget_d

theorem claim_C9_witness :
    (PathsUnique regW9 ∧ (0 < regW9.length)
        ∧ (regW9.get ⟨0, Nat.zero_lt_one⟩).path ≠ ("b")
        ∧ combo (regW9.get ⟨0, Nat.zero_lt_one⟩) ≠ (2, 0))
      ∧ ∃ hi2 : 0 < (_set_accelmap_entry regW9 ("b") 2 0).length,
          (_set_accelmap_entry regW9 ("b") 2 0).get ⟨0, hi2⟩
            = regW9.get ⟨0, Nat.zero_lt_one⟩ :=
  ⟨⟨by decide, by decide, by decide, by decide⟩,
    claim_C9 regW9 ("b") 2 0 (by decide) 0 Nat.zero_lt_one (by decide) (by decide)⟩

theorem action_fold_fst (D : List (String × String)) (gname : String) :
    ∀ (l : List ActionInfo) (acc : List AccelRow × List (String × String)),
      (l.foldl (_init_action_step D gname) acc).1
        = acc.1 ++ (l.filter labeled).map (fun a =>
            ⟨action_path gname a.name,
              dict_get D (action_path gname a.name), label_text a⟩)
  | [], acc => by simp
  | a :: t, acc => by
      rw [List.foldl_cons, action_fold_fst D gname t]
      cases hl : a.label with
      | none =>
          have hstep : _init_action_step D gname acc a = acc := by
            simp [_init_action_step, hl]
          have hlab : labeled a = false := by simp [labeled, hl]
          rw [hstep, List.filter_cons, hlab]
          simp
      | some s =>
          by_cases hs : s = ("")
          · have hstep : _init_action_step D gname acc a = acc := by
              simp [_init_action_step, hl, hs]
            have hlab : labeled a = false := by simp [labeled, hl, hs]
            rw [hstep, List.filter_cons, hlab]
            simp
          · have hstep : _init_action_step D gname acc a
                = (acc.1 ++ [⟨action_path gname a.name,
                      dict_get D (action_path gname a.name), s⟩],
                    dict_set acc.2 (action_path gname a.name) s) := by
              simp [_init_action_step, hl, hs]
            have hlab : labeled a = true := by simp [labeled, hl, hs]
            have htext : label_text a = s := by simp [label_text, hl]
            rw [hstep, List.filter_cons, hlab]
            simp only [if_true, List.map_cons, htext, List.append_assoc]
            rfl

theorem group_fold_fst (D : List (String × String)) :
    ∀ (gs : List ActionGroup) (acc : List AccelRow × List (String × String)),
      (gs.foldl (_init_group_step D) acc).1 = acc.1 ++ gs.flatMap (rows_for D)
  | [], acc => by simp
  | g :: t, acc => by
      rw [List.foldl_cons, group_fold_fst D t]
      unfold _init_group_step
      rw [action_fold_fst D g.name g.actions acc]
      rw [List.flatMap_cons, ← List.append_assoc]
      rfl

/-- C4: rebuilding the list produces exactly one row for each action
whose label is truthy (non-empty and present), carrying its path, its
label, and its current accelerator label (absent when the path has
none), and no row for any action with an empty or missing label: the
store contents equal the filter-map of the action list. -/
theorem claim_C4 (tk : Toolkit) (entries : Registry) (groups : List ActionGroup) :
    (_init_from_accel_map tk entries groups).1
      = groups.flatMap (rows_for (accel_labels_of tk entries)) := by
  unfold _init_from_accel_map
  rw [group_fold_fst (accel_labels_of tk entries) groups ([], [])]
  rfl

theorem handler_return_branch (tk : Toolkit) (al : List (String × String))
    (entries : Registry) (dialog : DialogState) (event : KeyEvent)
    (h1 : event.type = KEY_PRESS) (h2 : event.is_modifier = false)
    (hk : event.keyval = KEY_Return) :
    _edit_dialog_key_press_cb tk al entries dialog event
      = ⟨true, dialog, some RESPONSE_OK⟩ := by
  unfold _edit_dialog_key_press_cb
  rw [if_neg (not_not_intro h1), if_neg (by rw [h2]; simp)]
  rw [if_pos ⟨rfl, hk⟩]

theorem handler_escape_branch (tk : Toolkit) (al : List (String × String))
    (entries : Registry) (dialog : DialogState) (event : KeyEvent)
    (h1 : event.type = KEY_PRESS) (h2 : event.is_modifier = false)
    (hk : event.keyval = KEY_Escape) :
    _edit_dialog_key_press_cb tk al entries dialog event
      = ⟨true, dialog, some RESPONSE_CANCEL⟩ := by
  unfold _edit_dialog_key_press_cb
  rw [if_neg (not_not_intro h1), if_neg (by rw [h2]; simp)]
  rw [if_neg (by rw [hk]; simp [KEY_Escape, KEY_Return])]
  rw [if_pos ⟨rfl, hk⟩]

theorem handler_backspace_branch (tk : Toolkit) (al : List (String × String))
    (entries : Registry) (dialog : DialogState) (event : KeyEvent)
    (h1 : event.type = KEY_PRESS) (h2 : event.is_modifier = false)
    (hk : event.keyval = KEY_BackSpace) :
    _edit_dialog_key_press_cb tk al entries dialog event
      = ⟨true, dialog, some RESPONSE_REJECT⟩ := by
  unfold _edit_dialog_key_press_cb
  rw [if_neg (not_not_intro h1), if_neg (by rw [h2]; simp)]
  rw [if_neg (by rw [hk]; simp [KEY_BackSpace, KEY_Return])]
  rw [if_neg (by rw [hk]; simp [KEY_BackSpace, KEY_Escape])]
  rw [if_pos ⟨rfl, hk⟩]

theorem handler_invalid_absorbed (tk : Toolkit) (al : List (String × String))
    (entries : Registry) (dialog : DialogState) (event : KeyEvent)
    (h1 : event.type = KEY_PRESS) (h2 : event.is_modifier = false)
    (h3 : event.keyval ≠ KEY_Return) (h4 : event.keyval ≠ KEY_Escape)
    (h5 : event.keyval ≠ KEY_BackSpace)
    (h6 : tk.accelerator_valid (resolved_keyval tk event) (resolved_mods tk event)
        = false) :
    _edit_dialog_key_press_cb tk al entries dialog event
      = ⟨true, dialog, none⟩ := by
  unfold _edit_dialog_key_press_cb
  rw [if_neg (not_not_intro h1), if_neg (by rw [h2]; simp)]
  rw [if_neg (fun hh => h3 hh.2)]
  rw [if_neg (fun hh => h4 hh.2)]
  rw [if_neg (fun hh => h5 hh.2)]
  simp only
  rw [if_pos h6]

theorem handler_records (tk : Toolkit) (al : List (String × String))
    (entries : Registry) (dialog : DialogState) (event : KeyEvent)
    (h1 : event.type = KEY_PRESS) (h2 : event.is_modifier = false)
    (h3 : event.keyval ≠ KEY_Return) (h4 : event.keyval ≠ KEY_Escape)
    (h5 : event.keyval ≠ KEY_BackSpace)
    (h6 : tk.accelerator_valid (resolved_keyval tk event) (resolved_mods tk event)
        = true) :
    (_edit_dialog_key_press_cb tk al entries dialog event).handled = true
      ∧ (_edit_dialog_key_press_cb tk al entries dialog event).response = none
      ∧ (_edit_dialog_key_press_cb tk al entries dialog event).dialog.result_keyval
          = some (resolved_keyval tk event)
      ∧ (_edit_dialog_key_press_cb tk al entries dialog event).dialog.result_mods
          = some (resolved_mods tk event) := by
  unfold _edit_dialog_key_press_cb
  rw [if_neg (not_not_intro h1), if_neg (by rw [h2]; simp)]
  rw [if_neg (fun hh => h3 hh.2)]
  rw [if_neg (fun hh => h4 hh.2)]
  rw [if_neg (fun hh => h5 hh.2)]
  simp only
  rw [if_neg (by rw [h6]; simp)]
  split
  · split
    · exact ⟨rfl, rfl, rfl, rfl⟩
    · exact ⟨rfl, rfl, rfl, rfl⟩
  · exact ⟨rfl, rfl, rfl, rfl⟩

/-- C5: when the capture handler records a pending combo for a
non-modifier key-press, the recorded modifier set is the event state
masked to the default accelerator mask with the consumed modifiers
subtracted, except that the Shift modifier is forced back in when
lowercasing changed the resolved keysym; the recorded keyval is the
lowercased layout-resolved keysym. -/
theorem claim_C5 (tk : Toolkit) (al : List (String × String))
    (entries : Registry) (dialog : DialogState) (event : KeyEvent)
    (h1 : event.type = KEY_PRESS) (h2 : event.is_modifier = false)
    (h3 : event.keyval ≠ KEY_Return) (h4 : event.keyval ≠ KEY_Escape)
    (h5 : event.keyval ≠ KEY_BackSpace)
    (h6 : tk.accelerator_valid (resolved_keyval tk event) (resolved_mods tk event)
        = true) :
    (_edit_dialog_key_press_cb tk al entries dialog event).dialog.result_keyval
        = some (tk.keyval_to_lower
            (tk.translate_keyboard_state event.hardware_keycode event.state
              event.group).keyval)
      ∧ (_edit_dialog_key_press_cb tk al entries dialog event).dialog.result_mods
        = some (if tk.keyval_to_lower
              (tk.translate_keyboard_state event.hardware_keycode event.state
                event.group).keyval ≠ event.keyval
            then lor32 (andNot32
                (land32 event.state tk.accelerator_get_default_mod_mask)
                (tk.translate_keyboard_state event.hardware_keycode event.state
                  event.group).consumed_modifiers) SHIFT_MASK
            else andNot32
                (land32 event.state tk.accelerator_get_default_mod_mask)
                (tk.translate_keyboard_state event.hardware_keycode event.state
                  event.group).consumed_modifiers) :=
  ⟨(handler_records tk al entries dialog event h1 h2 h3 h4 h5 h6).2.2.1,
    (handler_records tk al entries dialog event h1 h2 h3 h4 h5 h6).2.2.2⟩

theorem claim_C5_witness :
    (evW5.type = KEY_PRESS ∧ evW5.is_modifier = false
        ∧ evW5.keyval ≠ KEY_Return ∧ evW5.keyval ≠ KEY_Escape
        ∧ evW5.keyval ≠ KEY_BackSpace
        ∧ tkW5.accelerator_valid (resolved_keyval tkW5 evW5)
            (resolved_mods tkW5 evW5) = true)
      ∧ ((_edit_dialog_key_press_cb tkW5 [] [] dialogW evW5).dialog.result_keyval
          = some (tkW5.keyval_to_lower
              (tkW5.translate_keyboard_state evW5.hardware_keycode evW5.state
                evW5.group).keyval)
        ∧ (_edit_dialog_key_press_cb tkW5 [] [] dialogW evW5).dialog.result_mods
          = some (if tkW5.keyval_to_lower
                (tkW5.translate_keyboard_state evW5.hardware_keycode evW5.state
                  evW5.group).keyval ≠ evW5.keyval
              then lor32 (andNot32
                  (land32 evW5.state tkW5.accelerator_get_default_mod_mask)
                  (tkW5.translate_keyboard_state evW5.hardware_keycode evW5.state
                    evW5.group).consumed_modifiers) SHIFT_MASK
              else andNot32
                  (land32 evW5.state tkW5.accelerator_get_default_mod_mask)
                  (tkW5.translate_keyboard_state evW5.hardware_keycode evW5.state
                    evW5.group).consumed_modifiers)) :=
  ⟨⟨by decide, by decide, by decide, by decide, by decide, by decide⟩,
    claim_C5 tkW5 [] [] dialogW evW5 (by decide) (by decide) (by decide)
      (by decide) (by decide) (by decide)⟩

/-- C6: a key-press whose resolved combo the toolkit's
accelerator-validity rule rejects is absorbed: the handler marks the
event handled, emits no terminal response, and returns the dialog
state (pending result, preview label, hint) exactly as it was; the
registry is only read. -/
theorem claim_C6 (tk : Toolkit) (al : List (String × String))
    (entries : Registry) (dialog : DialogState) (event : KeyEvent)
    (h1 : event.type = KEY_PRESS) (h2 : event.is_modifier = false)
    (h3 : event.keyval ≠ KEY_Return) (h4 : event.keyval ≠ KEY_Escape)
    (h5 : event.keyval ≠ KEY_BackSpace)
    (h6 : tk.accelerator_valid (resolved_keyval tk event) (resolved_mods tk event)
        = false) :
    _edit_dialog_key_press_cb tk al entries dialog event
      = ⟨true, dialog, none⟩ :=
  handler_invalid_absorbed tk al entries dialog event h1 h2 h3 h4 h5 h6

theorem claim_C6_witness :
    (evW6.type = KEY_PRESS ∧ evW6.is_modifier = false
        ∧ evW6.keyval ≠ KEY_Return ∧ evW6.keyval ≠ KEY_Escape
        ∧ evW6.keyval ≠ KEY_BackSpace
        ∧ tkW6.accelerator_valid (resolved_keyval tkW6 evW6)
            (resolved_mods tkW6 evW6) = false)
      ∧ _edit_dialog_key_press_cb tkW6 [] [] dialogW evW6
          = ⟨true, dialogW, none⟩ :=
  ⟨⟨by decide, by decide, by decide, by decide, by decide, by decide⟩,
    claim_C6 tkW6 [] [] dialogW evW6 (by decide) (by decide) (by decide)
      (by decide) (by decide) (by decide)⟩

/-- C7: responding Delete (REJECT) for a path with no registry entry
changes nothing in the registry and still finalizes the editing widget,
removes it and destroys the dialog. -/
theorem claim_C7 (reg : Registry) (dialog : DialogState) (path : String)
    (h : lookup_entry reg path = false) :
    _edit_dialog_response_cb reg dialog RESPONSE_REJECT path
      = ⟨reg, true, true, true⟩ := by
  unfold _edit_dialog_response_cb
  rw [if_pos rfl]
  rw [if_neg (by rw [h]; simp)]

theorem claim_C7_witness :
    lookup_entry regW9 ("b") = false
      ∧ _edit_dialog_response_cb regW9 dialogW RESPONSE_REJECT ("b")
          = ⟨regW9, true, true, true⟩ :=
  ⟨by decide, claim_C7 regW9 dialogW ("b") (by decide)⟩

/-- C8: a modifier-only key-press is ignored: the handler does not mark
the event handled, emits no terminal response, and leaves the dialog
state, in particular the pending result fields, untouched, so capture
continues. -/
theorem claim_C8 (tk : Toolkit) (al : List (String × String))
    (entries : Registry) (dialog : DialogState) (event : KeyEvent)
    (h1 : event.type = KEY_PRESS) (h2 : event.is_modifier = true) :
    _edit_dialog_key_press_cb tk al entries dialog event
      = ⟨false, dialog, none⟩ := by
  unfold _edit_dialog_key_press_cb
  rw [if_neg (not_not_intro h1)]
  rw [if_pos h2]

theorem claim_C8_witness :
    (evW8.type = KEY_PRESS ∧ evW8.is_modifier = true)
      ∧ _edit_dialog_key_press_cb tkW10 [] [] dialogW evW8
          = ⟨false, dialogW, none⟩ :=
  ⟨⟨by decide, by decide⟩,
    claim_C8 tkW10 [] [] dialogW evW8 (by decide) (by decide)⟩

/-- C10: a key-press on Return, Escape or BackSpace, whatever
modifiers are held, immediately emits the corresponding terminal
response (OK, Cancel, Delete) with the dialog state untouched, before
any layout translation; and under the toolkit contract that the event
keyval is the layout-resolved keysym (with lowercasing fixing these
three keys), any newly recorded pending keyval is none of the three. -/
theorem claim_C10 (tk : Toolkit) (al : List (String × String))
    (entries : Registry) (dialog : DialogState) (event : KeyEvent)
    (h1 : event.type = KEY_PRESS) (h2 : event.is_modifier = false)
    (htr : (tk.translate_keyboard_state event.hardware_keycode event.state
        event.group).keyval = event.keyval)
    (hlr : ∀ x, tk.keyval_to_lower x = KEY_Return → x = KEY_Return)
    (hle : ∀ x, tk.keyval_to_lower x = KEY_Escape → x = KEY_Escape)
    (hlb : ∀ x, tk.keyval_to_lower x = KEY_BackSpace → x = KEY_BackSpace) :
    (event.keyval = KEY_Return →
        _edit_dialog_key_press_cb tk al entries dialog event
          = ⟨true, dialog, some RESPONSE_OK⟩)
      ∧ (event.keyval = KEY_Escape →
          _edit_dialog_key_press_cb tk al entries dialog event
            = ⟨true, dialog, some RESPONSE_CANCEL⟩)
      ∧ (event.keyval = KEY_BackSpace →
          _edit_dialog_key_press_cb tk al entries dialog event
            = ⟨true, dialog, some RESPONSE_REJECT⟩)
      ∧ ∀ kv2,
          (_edit_dialog_key_press_cb tk al entries dialog event).dialog.result_keyval
              = some kv2 →
            dialog.result_keyval = some kv2
              ∨ (kv2 ≠ KEY_Return ∧ kv2 ≠ KEY_Escape ∧ kv2 ≠ KEY_BackSpace) := by
  refine ⟨fun hk => handler_return_branch tk al entries dialog event h1 h2 hk,
    fun hk => handler_escape_branch tk al entries dialog event h1 h2 hk,
    fun hk => handler_backspace_branch tk al entries dialog event h1 h2 hk,
    ?_⟩
  intro kv2 hkv2
  by_cases h3 : event.keyval = KEY_Return
  · rw [handler_return_branch tk al entries dialog event h1 h2 h3] at hkv2
    exact Or.inl hkv2
  by_cases h4 : event.keyval = KEY_Escape
  · rw [handler_escape_branch tk al entries dialog event h1 h2 h4] at hkv2
    exact Or.inl hkv2
  by_cases h5 : event.keyval = KEY_BackSpace
  · rw [handler_backspace_branch tk al entries dialog event h1 h2 h5] at hkv2
    exact Or.inl hkv2
  by_cases h6 : tk.accelerator_valid (resolved_keyval tk event)
      (resolved_mods tk event) = true
  · have hrec := handler_records tk al entries dialog event h1 h2 h3 h4 h5 h6
    rw [hrec.2.2.1] at hkv2
    have hkv2' : resolved_keyval tk event = kv2 := Option.some.inj hkv2
    have hres : tk.keyval_to_lower event.keyval = kv2 := by
      rw [← hkv2']
      unfold resolved_keyval
      rw [htr]
    refine Or.inr ⟨?_, ?_, ?_⟩
    · intro hh
      rw [hh] at hres
      exact h3 (hlr event.keyval hres)
    · intro hh
      rw [hh] at hres
      exact h4 (hle event.keyval hres)
    · intro hh
      rw [hh] at hres
      exact h5 (hlb event.keyval hres)
  · have h6' : tk.accelerator_valid (resolved_keyval tk event)
        (resolved_mods tk event) = false := by
      rw [Bool.eq_false_iff]
      exact h6
    rw [handler_invalid_absorbed tk al entries dialog event h1 h2 h3 h4 h5 h6']
      at hkv2
    exact Or.inl hkv2

theorem claim_C10_witness :
    (evW6.type = KEY_PRESS ∧ evW6.is_modifier = false
        ∧ (tkW10.translate_keyboard_state evW6.hardware_keycode evW6.state
            evW6.group).keyval = evW6.keyval
        ∧ (∀ x, tkW10.keyval_to_lower x = KEY_Return → x = KEY_Return)
        ∧ (∀ x, tkW10.keyval_to_lower x = KEY_Escape → x = KEY_Escape)
        ∧ (∀ x, tkW10.keyval_to_lower x = KEY_BackSpace → x = KEY_BackSpace))
      ∧ ((evW6.keyval = KEY_Return →
            _edit_dialog_key_press_cb tkW10 [] [] dialogW evW6
              = ⟨true, dialogW, some RESPONSE_OK⟩)
        ∧ (evW6.keyval = KEY_Escape →
            _edit_dialog_key_press_cb tkW10 [] [] dialogW evW6
              = ⟨true, dialogW, some RESPONSE_CANCEL⟩)
        ∧ (evW6.keyval = KEY_BackSpace →
            _edit_dialog_key_press_cb tkW10 [] [] dialogW evW6
              = ⟨true, dialogW, some RESPONSE_REJECT⟩)
        ∧ ∀ kv2,
            (_edit_dialog_key_press_cb tkW10 [] [] dialogW evW6).dialog.result_keyval
                = some kv2 →
              dialogW.result_keyval = some kv2
                ∨ (kv2 ≠ KEY_Return ∧ kv2 ≠ KEY_Escape ∧ kv2 ≠ KEY_BackSpace)) :=
  ⟨⟨by decide, by decide, by decide, fun x h => h, fun x h => h, fun x h => h⟩,
    claim_C10 tkW10 [] [] dialogW evW6 (by decide) (by decide) (by decide)
      (fun x h => h) (fun x h => h) (fun x h => h)⟩
